import Mathlib

/-!
Verification development for the tool-discovery and action-execution core of
the ToolRouter repository.  The Lean definitions below are shallow embeddings,
translated statement by statement from the Python sources:

  * `src/utils/cache_utils.py`  — the JSON TTL cache (`load_cache`, `save_cache`);
  * `src/workflows/hedge_fund_research.py` — the discovery resolver inside
    `run_research` (lines 222-323), the per-item normalizer (lines 285-308),
    batch deduplication (lines 309-318) and the action-execution dispatcher
    `_execute_action` (lines 442-499).

Conventions of the embedding:

  * JSON documents are modelled by the inductive `JVal`; Python `dict`s appear
    as insertion-ordered association lists (Python 3.7+ dict order).
  * Python truthiness of the values that the code actually tests is modelled
    explicitly (`jfalsy`, `truthyS`).
  * A Python function that can raise an uncaught exception is modelled with
    `Except PyErr`; code paths whose exceptions are caught by a surrounding
    `try/except` return their fallback value directly.
  * `time.time()` is passed in as an explicit integer-valued clock `now`; only
    order and subtraction of timestamps matter to the code under study.
  * Logging calls are side effects with no data flow and are not modelled.
-/

namespace ToolRouter

/-! ## Python-style string truthiness helpers -/

/-- Truthiness of an optional string field: Python treats both `None` and the
empty string as falsy in an `x or y` chain. -/
def truthyS : Option String → Bool
  | none => false
  | some s => decide (s ≠ "")

/-- Embedding of the Python expression `a or b` on optional/str-valued fields:
returns `a` when `a` is truthy, otherwise `b` unchanged. -/
def pyOrS (a b : Option String) : Option String :=
  if truthyS a then a else b

/-- Embedding of `x or ""` applied to an optional string (`record.get(k) or ""`). -/
def orEmpty : Option String → String
  | none => ""
  | some s => s

/-- Embedding of the Python expression `a or b` on plain strings (where the
empty string is the only falsy value). -/
def pyOrStr (a b : String) : String :=
  if a = "" then b else a

/-- Embedding of `str.lower()`: character-wise lowering. -/
def pyLower (s : String) : String :=
  String.mk (s.data.map Char.toLower)

/-! ## JSON values and the on-disk cache file (`src/utils/cache_utils.py`)

`JVal` models a parsed JSON document; `num` carries the integer-valued clock
used for the `ts` field.  `FileContent` models the state of the cache file as
seen by `load_cache`/`save_cache`: absent, present but unreadable (`open`
raises), present but not parseable as JSON (`json.load` raises), or a parsed
JSON document. -/

inductive JVal where
  | null : JVal
  | bool : Bool → JVal
  | num : Int → JVal
  | str : String → JVal
  | arr : List JVal → JVal
  | obj : List (String × JVal) → JVal

/-- Python truthiness (`if not entry:`) of a JSON value. -/
def jfalsy : JVal → Bool
  | .null => true
  | .bool b => !b
  | .num n => decide (n = 0)
  | .str s => decide (s = "")
  | .arr l => l.isEmpty
  | .obj m => m.isEmpty

/-- Does the JSON document have an object (Python `dict`) at top level? -/
def jIsObj : JVal → Bool
  | .obj _ => true
  | _ => false

/-- Embedding of `d.get(k)` on a parsed JSON object, as an association-list
lookup (first match; parsed JSON objects have unique keys). -/
def plookup (k : String) : List (String × JVal) → Option JVal
  | [] => none
  | (k2, v) :: rest => if k2 = k then some v else plookup k rest

/-- Embedding of `d[k] = v` on a Python dict: an existing key keeps its
position and gets the new value, a new key is appended. -/
def jset (m : List (String × JVal)) (k : String) (v : JVal) : List (String × JVal) :=
  match m with
  | [] => [(k, v)]
  | (k2, v2) :: rest => if k2 = k then (k2, v) :: rest else (k2, v2) :: jset rest k v

/-- Uncaught Python exceptions that the cache functions can raise. -/
inductive PyErr where
  | attributeError : PyErr
  | typeError : PyErr

inductive FileContent where
  | absent : FileContent
  | unreadable : FileContent
  | invalidJson : FileContent
  | json : JVal → FileContent

/-- Embedding of `load_cache(path, key, max_age_seconds)` from
`src/utils/cache_utils.py` lines 16-40, with the file state and the current
clock passed explicitly.  The `try` block covers only `open` and `json.load`;
`payload.get(key)` on a non-object document and `entry.get("ts")` on a
non-object entry raise an uncaught `AttributeError`, and `time.time() - ts`
with a non-numeric `ts` raises an uncaught `TypeError` (only evaluated when
`max_age_seconds is not None`, by short-circuiting).  A miss returns Python
`None`, i.e. `JVal.null`. -/
def load_cache (fc : FileContent) (key : String) (maxAge : Option Int) (now : Int) :
    Except PyErr JVal :=
  match fc with
  | .absent => .ok .null
  | .unreadable => .ok .null
  | .invalidJson => .ok .null
  | .json j =>
    match j with
    | .obj payload =>
      match plookup key payload with
      | none => .ok .null
      | some entry =>
        if jfalsy entry then .ok .null
        else
          match entry with
          | .obj em =>
            match plookup "ts" em with
            | none => .ok .null
            | some .null => .ok .null
            | some (.num ts) =>
              match maxAge with
              | some ma =>
                if now - ts > ma then .ok .null
                else .ok ((plookup "value" em).getD .null)
              | none => .ok ((plookup "value" em).getD .null)
            | some _ =>
              match maxAge with
              | some _ => .error .typeError
              | none => .ok ((plookup "value" em).getD .null)
          | _ => .error .attributeError
    | _ => .error .attributeError

/-- Embedding of `save_cache(path, key, value)` from `src/utils/cache_utils.py`
lines 43-56.  Reading an absent/unreadable/unparseable file yields the empty
store `{}`; a file that parses to a non-object raises an uncaught `TypeError`
at `payload[key] = ...`.  The final write is modelled as replacing the file
content (`_safe_makedirs` and the write itself have no data flow here). -/
def save_cache (fc : FileContent) (key : String) (v : JVal) (now : Int) :
    Except PyErr FileContent :=
  let payload : Except PyErr (List (String × JVal)) :=
    match fc with
    | .absent => .ok []
    | .unreadable => .ok []
    | .invalidJson => .ok []
    | .json j =>
      match j with
      | .obj m => .ok m
      | _ => .error .typeError
  match payload with
  | .error e => .error e
  | .ok m => .ok (.json (.obj (jset m key (.obj [("ts", .num now), ("value", v)]))))

/-! ### Basic lemmas about the cache store -/

theorem plookup_jset_self (m : List (String × JVal)) (k : String) (v : JVal) :
    plookup k (jset m k v) = some v := by
  induction m with
  | nil => simp [plookup, jset]
  | cons hd tl ih =>
    obtain ⟨k2, v2⟩ := hd
    by_cases h : k2 = k
    · simp [jset, plookup, h]
    · simp [jset, plookup, h, ih]


theorem load_after_set (m : List (String × JVal)) (k : String) (v : JVal) (now now2 : Int) :
    load_cache (.json (.obj (jset m k (.obj [("ts", .num now), ("value", v)])))) k none now2 =
      .ok v := by
  simp [load_cache, plookup_jset_self, jfalsy, plookup]

/-! ## Claim C2 — cache error handling

The claim asserts that `load_cache` and `save_cache` never raise, in
particular on a file whose content is valid JSON but not a JSON object.  In
the source the `try` blocks cover only `open`/`json.load`; with a top-level
JSON array, `payload.get(key)` in `load_cache` raises an uncaught
`AttributeError` and `payload[key] = ...` in `save_cache` raises an uncaught
`TypeError`. -/

/-- C2 counterexample: on a file containing the valid JSON document `[]`
(not an object), `load_cache` raises `AttributeError` instead of returning
`None`, and `save_cache` raises `TypeError` instead of starting from an empty
store. -/
theorem c2_counterexample :
    load_cache (.json (.arr [])) "k" none 0 = .error .attributeError ∧
    save_cache (.json (.arr [])) "k" (.str "v") 0 = .error .typeError ∧
    (Except.error PyErr.attributeError ≠ (Except.ok JVal.null : Except PyErr JVal)) := by
  refine ⟨rfl, rfl, ?_⟩
  intro h
  exact Except.noConfusion h

/-- C2 (amended): `load_cache` returns `None` when the file is absent,
unreadable, or not parseable as JSON, and `save_cache` starts from an empty
store in those same situations; but a file whose content parses to a
non-object JSON value makes `load_cache` raise `AttributeError` and
`save_cache` raise `TypeError`. -/
theorem c2_cache_error_handling :
    (∀ (k : String) (ma : Option Int) (now : Int),
      load_cache .absent k ma now = .ok .null ∧
      load_cache .unreadable k ma now = .ok .null ∧
      load_cache .invalidJson k ma now = .ok .null) ∧
    (∀ (k : String) (ma : Option Int) (now : Int) (j : JVal),
      jIsObj j = false → load_cache (.json j) k ma now = .error .attributeError) ∧
    (∀ (k : String) (v : JVal) (now : Int),
      save_cache .absent k v now =
        .ok (.json (.obj [(k, .obj [("ts", .num now), ("value", v)])])) ∧
      save_cache .unreadable k v now =
        .ok (.json (.obj [(k, .obj [("ts", .num now), ("value", v)])])) ∧
      save_cache .invalidJson k v now =
        .ok (.json (.obj [(k, .obj [("ts", .num now), ("value", v)])]))) ∧
    (∀ (k : String) (v : JVal) (now : Int) (j : JVal),
      jIsObj j = false → save_cache (.json j) k v now = .error .typeError) := by
  refine ⟨fun k ma now => ⟨rfl, rfl, rfl⟩, ?_, fun k v now => ⟨rfl, rfl, rfl⟩, ?_⟩
  · intro k ma now j hj
    cases j <;> first | rfl | simp [jIsObj] at hj
  · intro k v now j hj
    cases j <;> first | rfl | simp [jIsObj] at hj

/-- C2 witness: the amended theorem evaluated at a concrete unparseable file,
a concrete non-object JSON file, and a concrete key/value. -/
theorem c2_witness :
    load_cache .invalidJson "k" (some 10) 0 = .ok .null ∧
    load_cache (.json (.num 7)) "k" none 0 = .error .attributeError ∧
    save_cache .invalidJson "k" (.bool true) 2 =
      .ok (.json (.obj [("k", .obj [("ts", .num 2), ("value", .bool true)])])) ∧
    save_cache (.json (.num 7)) "k" (.bool true) 2 = .error .typeError :=
  ⟨(c2_cache_error_handling.1 "k" (some 10) 0).2.2,
   c2_cache_error_handling.2.1 "k" none 0 (.num 7) rfl,
   (c2_cache_error_handling.2.2.1 "k" (.bool true) 2).2.2,
   c2_cache_error_handling.2.2.2 "k" (.bool true) 2 (.num 7) rfl⟩

/-! ## Claim C7 — expiry boundary -/

/-- C7: for a stored entry with timestamp `ts`, `load_cache` returns the
stored value when `now - ts <= max_age` (the exact boundary keeps the value),
returns `None` when `now - ts > max_age`, and never expires the entry when
`max_age` is `None`. -/
theorem c7_expiry_boundary (store : List (String × JVal)) (key : String) (ts : Int)
    (v : JVal) (ma now : Int)
    (hentry : plookup key store = some (.obj [("ts", .num ts), ("value", v)])) :
    (now - ts ≤ ma → load_cache (.json (.obj store)) key (some ma) now = .ok v) ∧
    (now - ts > ma → load_cache (.json (.obj store)) key (some ma) now = .ok .null) ∧
    load_cache (.json (.obj store)) key none now = .ok v := by
  refine ⟨fun h => ?_, fun h => ?_, ?_⟩
  · simp [load_cache, hentry, jfalsy, plookup]
    omega
  · simp [load_cache, hentry, jfalsy, plookup]
    omega
  · simp [load_cache, hentry, jfalsy, plookup]

/-- C7 witness: concrete store, exact-boundary read (`now - ts = max_age`)
keeps the value, one second later expires it, and a `None` max-age read after
an arbitrary delay keeps it. -/
theorem c7_witness :
    load_cache (.json (.obj [("k", .obj [("ts", .num 10), ("value", .str "x")])]))
      "k" (some 5) 15 = .ok (.str "x") ∧
    load_cache (.json (.obj [("k", .obj [("ts", .num 10), ("value", .str "x")])]))
      "k" (some 5) 16 = .ok .null ∧
    load_cache (.json (.obj [("k", .obj [("ts", .num 10), ("value", .str "x")])]))
      "k" none 1000000 = .ok (.str "x") :=
  ⟨(c7_expiry_boundary [("k", .obj [("ts", .num 10), ("value", .str "x")])] "k" 10 (.str "x") 5 15 rfl).1 (by norm_num),
   (c7_expiry_boundary [("k", .obj [("ts", .num 10), ("value", .str "x")])] "k" 10 (.str "x") 5 16 rfl).2.1 (by norm_num),
   (c7_expiry_boundary [("k", .obj [("ts", .num 10), ("value", .str "x")])] "k" 10 (.str "x") 5 1000000 rfl).2.2⟩

/-! ## Claim C8 — cache round trip -/

/-- C8: whenever `save_cache(path, key, v)` completes (returning the new file
state), a subsequent `load_cache(path, key, None)` returns `v` unchanged,
whatever the prior file state and however much later the read happens. -/
theorem c8_roundtrip (fc : FileContent) (k : String) (v : JVal) (now now2 : Int)
    (fc2 : FileContent) (h : save_cache fc k v now = .ok fc2) :
    load_cache fc2 k none now2 = .ok v := by
  cases fc with
  | absent =>
    simp only [save_cache, Except.ok.injEq] at h
    subst h
    exact load_after_set [] k v now now2
  | unreadable =>
    simp only [save_cache, Except.ok.injEq] at h
    subst h
    exact load_after_set [] k v now now2
  | invalidJson =>
    simp only [save_cache, Except.ok.injEq] at h
    subst h
    exact load_after_set [] k v now now2
  | json j =>
    cases j with
    | obj m =>
      simp only [save_cache, Except.ok.injEq] at h
      subst h
      exact load_after_set m k v now now2
    | null => simp [save_cache] at h
    | bool b => simp [save_cache] at h
    | num n => simp [save_cache] at h
    | str s => simp [save_cache] at h
    | arr l => simp [save_cache] at h

/-- C8 witness: saving over a concrete pre-existing store and reading back
with no max-age returns the saved value unchanged. -/
theorem c8_witness :
    load_cache
      (.json (.obj [("old", .obj [("ts", .num 1), ("value", .num 5)]),
                    ("k", .obj [("ts", .num 3), ("value", .arr [.num 1, .str "a"])])]))
      "k" none 99 = .ok (.arr [.num 1, .str "a"]) :=
  c8_roundtrip (.json (.obj [("old", .obj [("ts", .num 1), ("value", .num 5)])]))
    "k" (.arr [.num 1, .str "a"]) 3 99 _ rfl

/-! ## Capability records and the per-item normalizer
(`src/workflows/hedge_fund_research.py`, `run_research` lines 285-308)

A raw item of unknown shape is one of: an object exposing `model_dump`, an
object exposing `dict`, a plain mapping, or a plain attribute-bearing object
(modelled with the four attributes the diagnostic script ever reads).  The
mapping obtained from the first three shapes is `SrcMap`: the fields the code
reads via `source.get(...)`, each absent-or-string (Python `None` and a missing
key are indistinguishable under `.get`).  The nested `toolkit` value may be a
sub-mapping carrying a `slug`, or some non-mapping value. -/

inductive TkVal where
  | tdict : Option String → TkVal
  | tother : TkVal
deriving DecidableEq

structure SrcMap where
  id : Option String
  slug : Option String
  tool_slug : Option String
  name : Option String
  display_name : Option String
  toolkit : Option TkVal
deriving DecidableEq

structure Attrs where
  id : Option String
  slug : Option String
  tool_slug : Option String
  name : Option String
deriving DecidableEq

inductive RawItem where
  | objDump : SrcMap → RawItem
  | objDict : SrcMap → RawItem
  | mapping : SrcMap → RawItem
  | plain : Attrs → RawItem
deriving DecidableEq

/-- The normalized catalog record built at lines 298-303:
`{"toolkit": slug, "id": ..., "slug": ..., "name": ...}`. -/
structure CapRecord where
  toolkit : String
  id : Option String
  slug : Option String
  name : Option String
deriving DecidableEq

/-- Embedding of lines 297 and 301: `source.get("toolkit") or {}` followed by
`toolkit_info.get("slug") if isinstance(toolkit_info, dict) else None`.  A
falsy or absent toolkit value becomes `{}` (slug `None`); a truthy non-dict
yields `None`. -/
def nestedSlug : Option TkVal → Option String
  | some (.tdict s) => s
  | _ => none

/-- Embedding of lines 286-293: obtain the `source` mapping from a raw item.
An item with none of `model_dump`/`dict` that is not a mapping is skipped
(`continue`), yielding no source. -/
def srcOf : RawItem → Option SrcMap
  | .objDump m => some m
  | .objDict m => some m
  | .mapping m => some m
  | .plain _ => none

/-- Embedding of the record construction at lines 298-303. -/
def mkRecord (g : String) (m : SrcMap) : CapRecord :=
  { toolkit := g
    id := pyOrS m.id (pyOrS m.slug m.tool_slug)
    slug := pyOrS m.slug (pyOrS m.tool_slug (nestedSlug m.toolkit))
    name := pyOrS m.name (pyOrS m.display_name m.id) }

/-- Embedding of the keep condition at line 305:
`if record.get("slug") or record.get("name")`. -/
def recordValid (r : CapRecord) : Bool :=
  truthyS r.slug || truthyS r.name

/-- Embedding of the whole per-item normalization step (lines 285-308): derive
the source mapping, build the record, keep it when its slug or name is truthy,
otherwise drop the item (the dropped case only logs). -/
def normalizeEntry (g : String) (e : RawItem) : Option CapRecord :=
  match srcOf e with
  | none => none
  | some m =>
    let r := mkRecord g m
    if recordValid r then some r else none

/-- Modelled from the claim wording of C6 (not from the source): the claim
derives `name = source.name or source.display_name or id` where `id` is the
previously *derived* identifier `source.id or source.slug or source.tool_slug`.
The source instead falls back to the raw `source.get("id")` field. -/
def claimC6Name (m : SrcMap) : Option String :=
  pyOrS m.name (pyOrS m.display_name (pyOrS m.id (pyOrS m.slug m.tool_slug)))

/-! ## Claim C6 — normalizer field derivation -/

/-- C6 counterexample: for the source mapping `{"slug": "S"}` the code derives
`name = None` (the raw `id` field is absent), while the claim derives
`name = "S"` (falling back to the derived id).  The produced record therefore
differs from the claim at this input. -/
theorem c6_counterexample :
    normalizeEntry "g"
        (.mapping { id := none, slug := some "S", tool_slug := none,
                    name := none, display_name := none, toolkit := none }) =
      some { toolkit := "g", id := some "S", slug := some "S", name := none } ∧
    claimC6Name { id := none, slug := some "S", tool_slug := none,
                  name := none, display_name := none, toolkit := none } = some "S" ∧
    ({ toolkit := "g", id := some "S", slug := some "S", name := none } : CapRecord).name ≠
      claimC6Name { id := none, slug := some "S", tool_slug := none,
                    name := none, display_name := none, toolkit := none } := by
  refine ⟨rfl, rfl, ?_⟩
  decide

theorem normalizeEntry_char (g : String) (e : RawItem) (m : SrcMap) (r : CapRecord)
    (hsrc : srcOf e = some m) :
    normalizeEntry g e = some r ↔
      r = mkRecord g m ∧
        (truthyS (mkRecord g m).slug = true ∨ truthyS (mkRecord g m).name = true) := by
  have h1 : normalizeEntry g e =
      (if recordValid (mkRecord g m) then some (mkRecord g m) else none) := by
    unfold normalizeEntry
    rw [hsrc]
  rw [h1]
  by_cases hv : recordValid (mkRecord g m) = true
  · have hor : truthyS (mkRecord g m).slug = true ∨ truthyS (mkRecord g m).name = true := by
      simpa [recordValid, Bool.or_eq_true] using hv
    rw [if_pos hv]
    simp only [Option.some.injEq]
    exact ⟨fun h => ⟨h.symm, hor⟩, fun h => h.1.symm⟩
  · have hor : ¬(truthyS (mkRecord g m).slug = true ∨ truthyS (mkRecord g m).name = true) := by
      intro h
      exact hv (by simpa [recordValid, Bool.or_eq_true] using h)
    rw [if_neg hv]
    constructor
    · intro h
      exact absurd h (by simp)
    · intro h
      exact absurd h.2 hor

/-- C6 (amended): for every item whose source mapping is obtained, the
normalizer derives `id = source.id or source.slug or source.tool_slug`,
`slug = source.slug or source.tool_slug or nested_toolkit.slug`, and
`name = source.name or source.display_name or source.id` (the raw `id` field
of the source, not the derived identifier); the item yields a catalog record
if and only if the derived slug or name is truthy (non-null and non-empty),
and is otherwise dropped, never raising. -/
theorem c6_normalizer_derivation (g : String) (e : RawItem) (r : CapRecord) :
    (normalizeEntry g e = some r ↔
      ∃ m, srcOf e = some m ∧ r = mkRecord g m ∧
        (truthyS (mkRecord g m).slug = true ∨ truthyS (mkRecord g m).name = true)) ∧
    ∀ m : SrcMap,
      mkRecord g m =
        { toolkit := g
          id := pyOrS m.id (pyOrS m.slug m.tool_slug)
          slug := pyOrS m.slug (pyOrS m.tool_slug (nestedSlug m.toolkit))
          name := pyOrS m.name (pyOrS m.display_name m.id) } := by
  refine ⟨?_, fun m => rfl⟩
  cases e with
  | plain a => simp [normalizeEntry, srcOf]
  | objDump m0 =>
    rw [normalizeEntry_char g (.objDump m0) m0 r rfl]
    constructor
    · rintro ⟨hr, hor⟩
      exact ⟨m0, rfl, hr, hor⟩
    · rintro ⟨m, hm, hr, hor⟩
      obtain rfl : m0 = m := by simpa [srcOf] using hm
      exact ⟨hr, hor⟩
  | objDict m0 =>
    rw [normalizeEntry_char g (.objDict m0) m0 r rfl]
    constructor
    · rintro ⟨hr, hor⟩
      exact ⟨m0, rfl, hr, hor⟩
    · rintro ⟨m, hm, hr, hor⟩
      obtain rfl : m0 = m := by simpa [srcOf] using hm
      exact ⟨hr, hor⟩
  | mapping m0 =>
    rw [normalizeEntry_char g (.mapping m0) m0 r rfl]
    constructor
    · rintro ⟨hr, hor⟩
      exact ⟨m0, rfl, hr, hor⟩
    · rintro ⟨m, hm, hr, hor⟩
      obtain rfl : m0 = m := by simpa [srcOf] using hm
      exact ⟨hr, hor⟩

/-! ## Claim C10 — items with neither a dump capability nor mapping shape -/

/-- C10 counterexample: a plain attribute-bearing object with a usable `slug`
and `name` attribute is skipped by the normalizer (no record), contradicting
the claim that attribute-based extraction yields a catalog record for it. -/
theorem c10_counterexample :
    normalizeEntry "sheets"
      (.plain { id := none, slug := some "SHEETS_APPEND",
                tool_slug := none, name := some "Append" }) = none := rfl

/-- C10 (amended): a raw item that neither exposes a serialize-to-mapping
capability nor is itself mapping-like is skipped entirely by the catalog
normalizer (the `continue` at line 293): no attribute-based extraction is
attempted and no record is produced, whatever attributes the item carries. -/
theorem c10_plain_items_skipped :
    ∀ (g : String) (a : Attrs), normalizeEntry g (.plain a) = none :=
  fun _ _ => rfl

/-! ## Claim C4 — batch deduplication (lines 309-318)

The code builds an insertion-ordered dict `deduped` keyed by
`((record.get("slug") or "") or (record.get("id") or "") or (record.get("name") or "")).lower()`,
inserting only unseen non-empty keys, and takes its values.  This equals a
single left-to-right pass keeping the first record of each non-empty key. -/

/-- Embedding of the identity key computed at lines 311-315. -/
def recordKey (r : CapRecord) : String :=
  pyLower (pyOrStr (orEmpty r.slug) (pyOrStr (orEmpty r.id) (orEmpty r.name)))

/-- Embedding of the dedup loop at lines 309-317, with `seen` the key set of
the `deduped` dict built so far (values are emitted in insertion order, so the
kept records appear in first-occurrence order). -/
def dedupGo (seen : List String) : List CapRecord → List CapRecord
  | [] => []
  | r :: rs =>
    if recordKey r ≠ "" ∧ recordKey r ∉ seen then r :: dedupGo (recordKey r :: seen) rs
    else dedupGo seen rs

/-- Embedding of `tool_catalog = list(deduped.values())` over the whole batch. -/
def dedupCatalog (cat : List CapRecord) : List CapRecord :=
  dedupGo [] cat

theorem pyLower_eq_empty_iff (s : String) : pyLower s = "" ↔ s = "" := by
  cases s with
  | mk data =>
    constructor
    · intro h
      have hd : data.map Char.toLower = [] := by
        have := congrArg String.data h
        simpa [pyLower] using this
      have : data = [] := List.map_eq_nil_iff.mp hd
      simp [this]
    · intro h
      have : data = [] := by
        have := congrArg String.data h
        simpa using this
      simp [pyLower, this]

theorem pyOrStr_eq_empty_iff (a b : String) : pyOrStr a b = "" ↔ a = "" ∧ b = "" := by
  unfold pyOrStr
  by_cases h : a = "" <;> simp [h]

theorem truthyS_eq_false_of_orEmpty (o : Option String) (h : orEmpty o = "") :
    truthyS o = false := by
  cases o with
  | none => rfl
  | some s =>
    simp only [orEmpty] at h
    simp [truthyS, h]

/-- A record the normalizer kept (truthy slug or name) has a non-empty
dedup key. -/
theorem recordKey_ne_of_valid (r : CapRecord) (h : recordValid r = true) :
    recordKey r ≠ "" := by
  intro hk
  unfold recordKey at hk
  rw [pyLower_eq_empty_iff, pyOrStr_eq_empty_iff] at hk
  obtain ⟨h1, h2⟩ := hk
  rw [pyOrStr_eq_empty_iff] at h2
  obtain ⟨h2, h3⟩ := h2
  rw [recordValid, truthyS_eq_false_of_orEmpty _ h1,
    truthyS_eq_false_of_orEmpty _ h3] at h
  simp at h

theorem dedupGo_filter (k : String) (hk : k ≠ "") :
    ∀ (cat : List CapRecord) (seen : List String),
      (dedupGo seen cat).filter (fun r => recordKey r == k) =
        if k ∈ seen then [] else (cat.find? (fun r => recordKey r == k)).toList := by
  intro cat
  induction cat with
  | nil =>
    intro seen
    by_cases h : k ∈ seen <;> simp [dedupGo, h]
  | cons r rs ih =>
    intro seen
    by_cases hcond : recordKey r ≠ "" ∧ recordKey r ∉ seen
    · rw [dedupGo, if_pos hcond]
      by_cases hrk : recordKey r = k
      · have hpred : (recordKey r == k) = true := by simp [hrk]
        have hmem : k ∈ recordKey r :: seen := by
          rw [← hrk]
          exact List.mem_cons_self _ _
        have hnot : k ∉ seen := hrk ▸ hcond.2
        rw [List.filter_cons, if_pos hpred, ih (recordKey r :: seen), if_pos hmem,
          List.find?_cons, hpred, if_neg hnot]
        rfl
      · have hpred : (recordKey r == k) = false := by simp [hrk]
        have hmem : (k ∈ recordKey r :: seen) ↔ k ∈ seen := by
          constructor
          · intro h
            rcases List.mem_cons.mp h with h | h
            · exact absurd h.symm hrk
            · exact h
          · exact fun h => List.mem_cons_of_mem _ h
        rw [List.filter_cons, if_neg (by simp [hpred]), ih (recordKey r :: seen),
          List.find?_cons, hpred]
        by_cases hs : k ∈ seen
        · rw [if_pos (hmem.mpr hs), if_pos hs]
        · rw [if_neg (fun hx => hs (hmem.mp hx)), if_neg hs]
    · rw [dedupGo, if_neg hcond]
      rw [ih seen]
      by_cases hs : k ∈ seen
      · rw [if_pos hs, if_pos hs]
      · have hrk : recordKey r ≠ k := by
          intro he
          rcases not_and_or.mp hcond with hc | hc
          · exact hk (he ▸ (not_not.mp hc))
          · exact hs (he ▸ (not_not.mp hc))
        have hpred : (recordKey r == k) = false := by simp [hrk]
        rw [if_neg hs, if_neg hs, List.find?_cons, hpred]

/-- C4: after all groups are resolved the catalog is deduplicated across the
whole batch by the key `lowercase(slug or id or name)` with the first
occurrence winning: for any key carried by some normalizer-kept record
(normalizer-kept records always have a non-empty key), exactly one record with
that key survives — the first-occurring one, kept whole (so it retains its
group), regardless of the group identifiers involved. -/
theorem c4_dedup_first_wins (cat : List CapRecord) (k : String)
    (h : ∃ r, r ∈ cat ∧ recordKey r = k ∧ recordValid r = true) :
    (dedupCatalog cat).filter (fun r => recordKey r == k) =
      (cat.find? (fun r => recordKey r == k)).toList ∧
    (cat.find? (fun r => recordKey r == k)).isSome = true := by
  obtain ⟨r, hmem, hk, hv⟩ := h
  have hk0 : k ≠ "" := hk ▸ recordKey_ne_of_valid r hv
  constructor
  · have := dedupGo_filter k hk0 cat []
    simpa [dedupCatalog] using this
  · rw [List.find?_isSome]
    exact ⟨r, hmem, by simp [hk]⟩

/-- C4 witness: two records with the same derived key `"s"` discovered under
different groups (`gmail` first, `slack` second); the deduplicated catalog
keeps exactly the first record, with its group. -/
theorem c4_witness :
    (dedupCatalog
        [{ toolkit := "gmail", id := some "S", slug := some "S", name := some "N1" },
         { toolkit := "slack", id := none, slug := some "s", name := some "N2" }]).filter
        (fun r => recordKey r == "s") =
      (List.find? (fun r => recordKey r == "s")
        [{ toolkit := "gmail", id := some "S", slug := some "S", name := some "N1" },
         { toolkit := "slack", id := none, slug := some "s", name := some "N2" }]).toList ∧
    (List.find? (fun r => recordKey r == "s")
      [{ toolkit := "gmail", id := some "S", slug := some "S", name := some "N1" },
       { toolkit := "slack", id := none, slug := some "s", name := some "N2" }]).isSome = true :=
  c4_dedup_first_wins _ "s"
    ⟨{ toolkit := "gmail", id := some "S", slug := some "S", name := some "N1" },
      by decide, by decide, by decide⟩

/-! ## Multi-client discovery resolver (`run_research` lines 222-323)

The cascade for one group tries, in order: the versioned client
(`composio_v3.tools.list`), the legacy client methods `list` then `get`
(`composio.tools`), and the raw-HTTP GET fallback.  Each later attempt is
gated on `if not entries`; the legacy and HTTP attempts additionally require
`self.composio is not None`. -/

inductive Adapter where
  | v3 : Adapter
  | legacyList : Adapter
  | legacyGet : Adapter
  | http : Adapter
deriving DecidableEq

inductive PyKind where
  | typeErr : PyKind
  | otherErr : PyKind
deriving DecidableEq

/-- Result of one legacy-method invocation (`composio.tools.list` / `.get`):
either an exception (`TypeError` means silent skip, anything else a logged
skip — both continue to the next method) or a sequence of raw items. -/
def MethodRes : Type := Except PyKind (List RawItem)

/-- The per-group adapter environment for one iteration of the discovery
loop: `v3` models `self.composio_v3` (absent, raising, or returning
`response.items or []`); `legacy` models `self.composio is not None`;
`toolsApi` models `getattr(self.composio, "tools", None) is not None`;
`listM`/`getM` model `getattr(tools_api, name, None)` (absent when not
callable) together with the call outcome; `http` models the raw-HTTP fallback
(absent when the client handle, endpoint container or tools URL is missing)
together with the list extracted from its JSON body. -/
structure GroupEnv where
  v3 : Option (Except Unit (List RawItem))
  legacy : Bool
  toolsApi : Bool
  listM : Option MethodRes
  getM : Option MethodRes
  http : Option (Except Unit (List RawItem))

/-- Embedding of the per-item conversion at lines 239-245: an item exposing
`model_dump`/`dict` contributes the dumped mapping, a mapping contributes
itself, anything else is skipped. -/
def v3Convert : RawItem → Option RawItem
  | .objDump m => some (.mapping m)
  | .objDict m => some (.mapping m)
  | .mapping m => some (.mapping m)
  | .plain _ => none

/-- Embedding of the versioned-client attempt (lines 235-247): nothing happens
without a versioned client; a raised exception is caught leaving `entries`
empty; otherwise the returned items are converted one by one.  The second
component records whether the adapter was invoked. -/
def v3Phase : Option (Except Unit (List RawItem)) → List RawItem × List Adapter
  | none => ([], [])
  | some (.error _) => ([], [Adapter.v3])
  | some (.ok items) => (items.filterMap v3Convert, [Adapter.v3])

def methodEntries : MethodRes → List RawItem
  | .error _ => []
  | .ok l => l

/-- Embedding of the legacy-client attempt (lines 249-267): try the method
names `list` then `get` in order; a non-callable method is skipped without an
invocation; a call that raises, or that returns a falsy (empty) payload, does
not `break`, so the next method is tried. -/
def legacyPhase (listM getM : Option MethodRes) : List RawItem × List Adapter :=
  match listM with
  | none =>
    match getM with
    | none => ([], [])
    | some r2 => (methodEntries r2, [Adapter.legacyGet])
  | some r =>
    if (methodEntries r).isEmpty then
      match getM with
      | none => ([], [Adapter.legacyList])
      | some r2 => (methodEntries r2, [Adapter.legacyList, Adapter.legacyGet])
    else (methodEntries r, [Adapter.legacyList])

/-- Embedding of the raw-HTTP fallback (lines 269-283): when available, a
successful GET contributes the list extracted from the response body
(`data.get("items") or data.get("data") or []` when that is a list), and any
exception is caught leaving `entries` unchanged. -/
def httpPhase : Option (Except Unit (List RawItem)) → List RawItem × List Adapter
  | none => ([], [])
  | some (.error _) => ([], [Adapter.http])
  | some (.ok items) => (items, [Adapter.http])

/-- Embedding of the adapter cascade for one group (lines 233-283): each later
phase runs only while `entries` is still empty, the legacy phase requires the
legacy client and its `tools` attribute, and the HTTP phase requires the
legacy client.  Returns the final `entries` together with the trace of
adapter invocations actually performed. -/
def resolveGroup (env : GroupEnv) : List RawItem × List Adapter :=
  let p1 := v3Phase env.v3
  if p1.1.isEmpty then
    let p2 := if env.legacy && env.toolsApi then legacyPhase env.listM env.getM else ([], [])
    if p2.1.isEmpty then
      let p3 := if env.legacy then httpPhase env.http else ([], [])
      (p3.1, p1.2 ++ p2.2 ++ p3.2)
    else (p2.1, p1.2 ++ p2.2)
  else p1

theorem isEmpty_eq_nil {α : Type} {l : List α} (h : l.isEmpty = true) : l = [] := by
  cases l with
  | nil => rfl
  | cons a t => simp [List.isEmpty] at h

/-! ## Claim C3 — fixed-priority fallback with first-non-empty-wins -/

/-- C3 counterexample: the versioned client returns a non-empty raw result
(one item that is neither dumpable nor a mapping), yet the resolver still
invokes the legacy `list` method and returns its entries — so a non-empty raw
result does not always win; only a non-empty converted entry list does. -/
theorem c3_counterexample :
    resolveGroup
        { v3 := some (.ok [.plain { id := none, slug := some "S",
                                    tool_slug := none, name := some "N" }])
          legacy := true
          toolsApi := true
          listM := some (.ok [.mapping { id := none, slug := some "LEG",
                                         tool_slug := none, name := none,
                                         display_name := none, toolkit := none }])
          getM := none
          http := none } =
      ([.mapping { id := none, slug := some "LEG", tool_slug := none, name := none,
                   display_name := none, toolkit := none }],
       [Adapter.v3, Adapter.legacyList]) ∧
    ([RawItem.plain { id := none, slug := some "S", tool_slug := none, name := some "N" }] :
      List RawItem) ≠ [] := by
  exact ⟨rfl, by simp⟩

/-- C3 (amended): on a cache miss the adapters are tried in the fixed order
versioned client, legacy `list`, legacy `get`, raw HTTP GET; the first phase
yielding a non-empty list of usable entries (for the versioned client: items
convertible to mappings) wins and later adapters are not invoked; a phase that
raises, is unavailable, returns an empty sequence, or (versioned client only)
returns only unconvertible items is passed over; and when every phase yields
empty, the empty result is accepted with all available adapters having been
tried, without error. -/
theorem c3_adapter_fallback_order (env : GroupEnv) :
    ((v3Phase env.v3).1.isEmpty = false → resolveGroup env = v3Phase env.v3) ∧
    ((v3Phase env.v3).1.isEmpty = true → env.legacy = true → env.toolsApi = true →
      (legacyPhase env.listM env.getM).1.isEmpty = false →
      resolveGroup env =
        ((legacyPhase env.listM env.getM).1,
          (v3Phase env.v3).2 ++ (legacyPhase env.listM env.getM).2)) ∧
    ((v3Phase env.v3).1.isEmpty = true →
      (if env.legacy && env.toolsApi then legacyPhase env.listM env.getM
       else ([], [])).1.isEmpty = true →
      resolveGroup env =
        ((if env.legacy then httpPhase env.http else ([], [])).1,
          (v3Phase env.v3).2 ++
            (if env.legacy && env.toolsApi then legacyPhase env.listM env.getM
             else ([], [])).2 ++
            (if env.legacy then httpPhase env.http else ([], [])).2)) ∧
    ((v3Phase env.v3).1.isEmpty = true →
      (legacyPhase env.listM env.getM).1.isEmpty = true →
      (httpPhase env.http).1.isEmpty = true →
      (resolveGroup env).1 = []) := by
  refine ⟨?_, ?_, ?_, ?_⟩
  · intro h1
    simp [resolveGroup, h1]
  · intro h1 hl ht h2
    simp [resolveGroup, h1, hl, ht, h2]
  · intro h1 h2
    simp only [resolveGroup, h1, if_true]
    rw [if_pos h2]
  · intro h1 h2 h3
    by_cases hl : env.legacy = true
    · by_cases ht : env.toolsApi = true
      · simp [resolveGroup, h1, hl, ht, h2, isEmpty_eq_nil h3]
      · have ht2 : env.toolsApi = false := by
          cases hx : env.toolsApi
          · rfl
          · exact absurd hx ht
        simp [resolveGroup, h1, hl, ht2, isEmpty_eq_nil h3]
    · have hl2 : env.legacy = false := by
        cases hx : env.legacy
        · rfl
        · exact absurd hx hl
      simp [resolveGroup, h1, hl2]

/-- C3 witness: a versioned client returning one mapping item wins outright
(trace contains only the versioned adapter); evaluated via the first conjunct
of the theorem. -/
theorem c3_witness :
    resolveGroup
        { v3 := some (.ok [.mapping { id := some "I", slug := none, tool_slug := none,
                                      name := none, display_name := none, toolkit := none }])
          legacy := true
          toolsApi := true
          listM := some (.ok [.mapping { id := none, slug := some "LEG",
                                         tool_slug := none, name := none,
                                         display_name := none, toolkit := none }])
          getM := none
          http := none } =
      ([.mapping { id := some "I", slug := none, tool_slug := none,
                   name := none, display_name := none, toolkit := none }],
       [Adapter.v3]) :=
  (c3_adapter_fallback_order _).1 (by decide)

/-! ## Batch cache key and the discovery pipeline (lines 222-323) -/

/-- Code-point-wise lexicographic comparison of strings (Python `<` on `str`),
written over the character lists so that it evaluates by reduction. -/
def charsLt : List Char → List Char → Bool
  | [], [] => false
  | [], _ :: _ => true
  | _ :: _, [] => false
  | c :: cs, d :: ds =>
    if c.toNat < d.toNat then true
    else if d.toNat < c.toNat then false
    else charsLt cs ds

def strLt (a b : String) : Bool :=
  charsLt a.data b.data

/-- Insertion step of an ascending string sort. -/
def insertSorted (s : String) : List String → List String
  | [] => [s]
  | t :: rest => if strLt s t then s :: t :: rest else t :: insertSorted s rest

/-- Ascending sort of strings, embedding Python `sorted`. -/
def sortStrings (l : List String) : List String :=
  l.foldr insertSorted []

/-- Embedding of line 225: `cache_key = ",".join(sorted(desired_toolkits))`.
`desired_toolkits` is a set, modelled as the duplicate-free view of the
requested group list. -/
def batchKey (groups : List String) : String :=
  String.intercalate "," (sortStrings groups.eraseDups)

/-- Typed bridge for the untyped JSON round trip of one catalog record: the
Python code writes the record dicts to the cache file verbatim and reuses the
parsed JSON list as the catalog. -/
def encOpt : Option String → JVal
  | none => .null
  | some s => .str s

def decOpt : JVal → Option (Option String)
  | .null => some none
  | .str s => some (some s)
  | _ => none

def encodeRecord (r : CapRecord) : JVal :=
  .obj [("toolkit", .str r.toolkit), ("id", encOpt r.id),
        ("slug", encOpt r.slug), ("name", encOpt r.name)]

def decodeRecord : JVal → Option CapRecord
  | .obj l =>
    match l with
    | [(k1, .str t), (k2, i), (k3, s), (k4, n)] =>
      if k1 = "toolkit" ∧ k2 = "id" ∧ k3 = "slug" ∧ k4 = "name" then
        match decOpt i, decOpt s, decOpt n with
        | some i2, some s2, some n2 =>
          some { toolkit := t, id := i2, slug := s2, name := n2 }
        | _, _, _ => none
      else none
    | _ => none
  | _ => none

def encodeCatalog (cat : List CapRecord) : JVal :=
  .arr (cat.map encodeRecord)

def decodeList : List JVal → Option (List CapRecord)
  | [] => some []
  | j :: rest =>
    match decodeRecord j, decodeList rest with
    | some r, some rs => some (r :: rs)
    | _, _ => none

def decodeCatalog : JVal → Option (List CapRecord)
  | .arr items => decodeList items
  | _ => none

theorem decOpt_encOpt (o : Option String) : decOpt (encOpt o) = some o := by
  cases o <;> rfl

theorem decodeRecord_encodeRecord (r : CapRecord) : decodeRecord (encodeRecord r) = some r := by
  obtain ⟨t, i, s, n⟩ := r
  simp [encodeRecord, decodeRecord, decOpt_encOpt]

theorem decodeCatalog_encodeCatalog (cat : List CapRecord) :
    decodeCatalog (encodeCatalog cat) = some cat := by
  suffices h : decodeList (cat.map encodeRecord) = some cat by
    simpa [decodeCatalog, encodeCatalog] using h
  induction cat with
  | nil => rfl
  | cons r rs ih => simp [decodeList, decodeRecord_encodeRecord r, ih]

/-- Embedding of the discovery section of `run_research` (lines 222-323):
load the cache under the batch key with the configured TTL (an uncaught cache
exception propagates, as in the source); on a hit with a truthy (non-empty)
cached list return it directly with no adapter invocation; otherwise run the
adapter cascade per group, normalize each entry under its group, concatenate,
and deduplicate across the batch.  The final best-effort `save_cache` (lines
319-323, wrapped in its own `try/except`) has no data flow into the returned
catalog and is not modelled.  The second component is the trace of adapter
invocations across all groups. -/
def runDiscovery (fc : FileContent) (now ttl : Int) (groups : List String)
    (env : String → GroupEnv) :
    Except PyErr (List CapRecord × List (String × Adapter)) :=
  match load_cache fc (batchKey groups) (some ttl) now with
  | .error e => .error e
  | .ok v =>
    let cat0 := (decodeCatalog v).getD []
    if cat0.isEmpty then
      let perGroup := groups.map (fun g =>
        let res := resolveGroup (env g)
        (res.1.filterMap (normalizeEntry g), res.2.map (fun a => (g, a))))
      .ok (dedupCatalog (perGroup.map Prod.fst).flatten, (perGroup.map Prod.snd).flatten)
    else .ok (cat0, [])

/-! ## Claim C5 — batch cache key and cache-hit short circuit -/

/-- C5 counterexample: an unexpired cache entry exists under the batch key
`"g"` (its value is the validly cached empty catalog `[]`), yet the resolver
does not return it directly: the truthiness test `if tool_catalog:` treats the
empty list as a miss and the adapter cascade runs (the versioned adapter is
invoked). -/
theorem c5_counterexample :
    load_cache (.json (.obj [("g", .obj [("ts", .num 0), ("value", .arr [])])]))
      "g" (some 3600) 0 = .ok (.arr []) ∧
    runDiscovery (.json (.obj [("g", .obj [("ts", .num 0), ("value", .arr [])])]))
      0 3600 ["g"]
      (fun _ => { v3 := some (.ok []), legacy := false, toolsApi := false,
                  listM := none, getM := none, http := none }) =
      .ok ([], [("g", Adapter.v3)]) := by
  exact ⟨rfl, rfl⟩

/-- C5 (amended): the resolver's cache key is the sorted, comma-joined set of
all group identifiers requested in the batch, and whenever an unexpired cache
entry holding a non-empty record list exists under that key, the resolver
returns the cached records directly with no adapter invocation; an unexpired
entry holding an empty list is instead treated as a miss. -/
theorem c5_cache_hit_skips_network (fc : FileContent) (now ttl : Int)
    (groups : List String) (env : String → GroupEnv) (cat : List CapRecord)
    (hload : load_cache fc (batchKey groups) (some ttl) now = .ok (encodeCatalog cat))
    (hne : cat ≠ []) :
    runDiscovery fc now ttl groups env = .ok (cat, []) := by
  unfold runDiscovery
  rw [hload]
  have hemp : cat.isEmpty = false := by
    cases cat with
    | nil => exact absurd rfl hne
    | cons a t => rfl
  simp [decodeCatalog_encodeCatalog, hemp]

/-- C5 witness: a cache file holding one record under the key `"a,b"`
(the sorted comma-join of the requested groups `["b", "a"]`), read within the
TTL: the cached record list is returned and the trace is empty even though a
working versioned client is configured. -/
theorem c5_witness :
    runDiscovery
        (.json (.obj [("a,b",
          .obj [("ts", .num 5),
                ("value", encodeCatalog
                  [{ toolkit := "gmail", id := some "I", slug := some "S",
                     name := some "N" }])])]))
        6 10 ["b", "a"]
        (fun _ => { v3 := some (.ok [.mapping { id := some "X", slug := none,
                                                tool_slug := none, name := none,
                                                display_name := none, toolkit := none }]),
                    legacy := true, toolsApi := true, listM := none, getM := none,
                    http := none }) =
      .ok ([{ toolkit := "gmail", id := some "I", slug := some "S", name := some "N" }],
           []) :=
  c5_cache_hit_skips_network _ 6 10 ["b", "a"] _
    [{ toolkit := "gmail", id := some "I", slug := some "S", name := some "N" }]
    (by rfl) (by simp)

/-! ## Action execution dispatcher (`_execute_action`, lines 442-499)

Parameter mappings are Python dicts of arbitrary values; only keys and the
values bound to them matter here, so values are modelled by the small `PVal`
universe.  `dict(params)` followed by `pop` calls is embedded as key erasure
plus lookup on the original mapping (a dict binds each key at most once, so
erasing every occurrence coincides). -/

inductive PVal where
  | pstr : String → PVal
  | pbool : Bool → PVal
  | pnum : Int → PVal
  | pnone : PVal
deriving DecidableEq

abbrev PMap : Type := List (String × PVal)

def lookupP (k : String) : PMap → Option PVal
  | [] => none
  | (k2, v) :: rest => if k2 = k then some v else lookupP k rest

def eraseKey (m : PMap) (k : String) : PMap :=
  m.filter (fun p => p.1 != k)

/-- The reserved parameter keys named by the spec. -/
def reservedKeys : List String :=
  ["connected_account_id", "user_id", "allow_tracing"]

/-- The call issued by the versioned-client strategy (lines 446-458):
`arguments` is `dict(params)` after popping all three reserved keys, passed
as `arguments or None`; the popped values are passed as separate call
arguments. -/
structure V3Call where
  tool_slug : String
  arguments : Option PMap
  connected_account_id : Option PVal
  user_id : Option PVal
  allow_tracing : Option PVal

def mkV3Call (slug : String) (params : PMap) : V3Call :=
  let a1 := eraseKey params "connected_account_id"
  let a2 := eraseKey a1 "user_id"
  let a3 := eraseKey a2 "allow_tracing"
  { tool_slug := slug
    arguments := if a3.isEmpty then none else some a3
    connected_account_id := lookupP "connected_account_id" params
    user_id := lookupP "user_id" a1
    allow_tracing := lookupP "allow_tracing" a2 }

/-- The call issued by the legacy enum-based strategy (lines 478-486): only
`connected_account_id` and `allow_tracing` are popped (`allow_tracing`
defaulting to `False`); `user_id` is not popped and remains inside the
forwarded `params` mapping. -/
structure LegacyCall where
  action : String
  params : PMap
  connected_account : Option PVal
  allow_tracing : PVal

def mkLegacyCall (slug : String) (params : PMap) : LegacyCall :=
  let a1 := eraseKey params "connected_account_id"
  let a2 := eraseKey a1 "allow_tracing"
  { action := slug
    params := a2
    connected_account := lookupP "connected_account_id" params
    allow_tracing := (lookupP "allow_tracing" a1).getD (.pbool false) }

theorem lookupP_eraseKey_self (m : PMap) (k : String) :
    lookupP k (eraseKey m k) = none := by
  induction m with
  | nil => rfl
  | cons hd tl ih =>
    obtain ⟨k2, v⟩ := hd
    by_cases h : k2 = k
    · simpa [eraseKey, List.filter_cons, h] using ih
    · simpa [eraseKey, List.filter_cons, h, lookupP] using ih

theorem lookupP_eraseKey_ne (m : PMap) (k k2 : String) (h : k ≠ k2) :
    lookupP k (eraseKey m k2) = lookupP k m := by
  induction m with
  | nil => rfl
  | cons hd tl ih =>
    obtain ⟨k3, v⟩ := hd
    by_cases h3 : k3 = k2
    · have hne21 : k2 ≠ k := Ne.symm h
      simpa [eraseKey, List.filter_cons, h3, lookupP, hne21] using ih
    · by_cases hk : k3 = k
      · simp [eraseKey, List.filter_cons, h3, lookupP, hk, h]
      · simpa [eraseKey, List.filter_cons, h3, lookupP, hk] using ih

/-! ## Claim C1 — reserved-key stripping by the execution strategies -/

/-- C1 counterexample: with `params = {"user_id": "u1", "foo": "bar"}` the
legacy enum-based strategy forwards `user_id` — a reserved key — inside its
generic `params` mapping instead of removing it. -/
theorem c1_counterexample :
    lookupP "user_id"
      (mkLegacyCall "SLACK_POST" [("user_id", .pstr "u1"), ("foo", .pstr "bar")]).params =
      some (.pstr "u1") ∧
    "user_id" ∈ reservedKeys := by
  exact ⟨rfl, by decide⟩

/-- C1 (amended): the versioned-client strategy removes all three reserved
keys from the forwarded argument mapping and passes their values as separate
call arguments (non-reserved bindings are forwarded unchanged); the legacy
enum-based strategy removes `connected_account_id` and `allow_tracing` only,
and forwards `user_id` inside the generic mapping. -/
theorem c1_reserved_key_stripping (slug : String) (params : PMap) :
    (∀ k, k ∈ reservedKeys →
      lookupP k ((mkV3Call slug params).arguments.getD []) = none) ∧
    lookupP "connected_account_id" (mkLegacyCall slug params).params = none ∧
    lookupP "allow_tracing" (mkLegacyCall slug params).params = none ∧
    (∀ k, k ∉ reservedKeys →
      lookupP k ((mkV3Call slug params).arguments.getD []) = lookupP k params) ∧
    (mkV3Call slug params).connected_account_id = lookupP "connected_account_id" params ∧
    (mkV3Call slug params).user_id = lookupP "user_id" params ∧
    (mkV3Call slug params).allow_tracing = lookupP "allow_tracing" params ∧
    (mkLegacyCall slug params).connected_account = lookupP "connected_account_id" params := by
  have hA : ∀ k, lookupP k ((mkV3Call slug params).arguments.getD []) =
      lookupP k (eraseKey (eraseKey (eraseKey params "connected_account_id") "user_id")
        "allow_tracing") := by
    intro k
    by_cases he : (eraseKey (eraseKey (eraseKey params "connected_account_id") "user_id")
        "allow_tracing").isEmpty
    · simp [mkV3Call, he, isEmpty_eq_nil he]
    · simp [mkV3Call, he]
  refine ⟨?_, ?_, ?_, ?_, rfl, ?_, ?_, rfl⟩
  · intro k hk
    rw [hA k]
    simp only [reservedKeys, List.mem_cons, List.mem_singleton] at hk
    rcases hk with rfl | rfl | hk
    · rw [lookupP_eraseKey_ne _ _ _ (by decide), lookupP_eraseKey_ne _ _ _ (by decide),
        lookupP_eraseKey_self]
    · rw [lookupP_eraseKey_ne _ _ _ (by decide), lookupP_eraseKey_self]
    · rcases hk with rfl | hk
      · rw [lookupP_eraseKey_self]
      · exact absurd hk (List.not_mem_nil _)
  · show lookupP "connected_account_id"
      (eraseKey (eraseKey params "connected_account_id") "allow_tracing") = none
    rw [lookupP_eraseKey_ne _ _ _ (by decide), lookupP_eraseKey_self]
  · show lookupP "allow_tracing"
      (eraseKey (eraseKey params "connected_account_id") "allow_tracing") = none
    rw [lookupP_eraseKey_self]
  · intro k hk
    rw [hA k]
    simp only [reservedKeys, List.mem_cons, List.mem_singleton, not_or] at hk
    obtain ⟨h1, h2, h3, -⟩ := hk
    rw [lookupP_eraseKey_ne _ _ _ h3, lookupP_eraseKey_ne _ _ _ h2,
      lookupP_eraseKey_ne _ _ _ h1]
  · show lookupP "user_id" (eraseKey params "connected_account_id") = lookupP "user_id" params
    exact lookupP_eraseKey_ne _ _ _ (by decide)
  · show lookupP "allow_tracing" (eraseKey (eraseKey params "connected_account_id") "user_id") =
      lookupP "allow_tracing" params
    rw [lookupP_eraseKey_ne _ _ _ (by decide), lookupP_eraseKey_ne _ _ _ (by decide)]

/-- C1 witness: the spec scenario `params = {"connected_account_id": "ca_1",
"foo": "bar"}` — the versioned strategy's forwarded mapping contains no
`connected_account_id` and forwards `foo` unchanged. -/
theorem c1_witness :
    lookupP "connected_account_id"
      ((mkV3Call "GMAIL_SEND_EMAIL"
        [("connected_account_id", .pstr "ca_1"), ("foo", .pstr "bar")]).arguments.getD []) =
      none ∧
    lookupP "foo"
      ((mkV3Call "GMAIL_SEND_EMAIL"
        [("connected_account_id", .pstr "ca_1"), ("foo", .pstr "bar")]).arguments.getD []) =
      lookupP "foo" [("connected_account_id", .pstr "ca_1"), ("foo", .pstr "bar")] :=
  ⟨(c1_reserved_key_stripping "GMAIL_SEND_EMAIL"
      [("connected_account_id", .pstr "ca_1"), ("foo", .pstr "bar")]).1
      "connected_account_id" (by decide),
   (c1_reserved_key_stripping "GMAIL_SEND_EMAIL"
      [("connected_account_id", .pstr "ca_1"), ("foo", .pstr "bar")]).2.2.2.1
      "foo" (by decide)⟩

/-! ## The dispatcher outcome (claims C9) -/

/-- Outcome shapes of the versioned-client call at lines 459-463: the response
may already be a dict, expose `model_dump`, or be any other value. -/
inductive V3Res where
  | rdict : PMap → V3Res
  | rdump : PMap → V3Res
  | rother : PVal → V3Res
deriving DecidableEq

/-- Lines 459-463: `payload = response.model_dump()` when available, then
`payload if isinstance(payload, dict) else {"data": payload}`. -/
def v3Payload : V3Res → PMap
  | .rdict m => m
  | .rdump m => m
  | .rother v => [("data", v)]

/-- Outcome of the legacy `composio.actions.execute` call (lines 481-499):
a dict result, a non-dict result (repackaged from its `status`/`data`
attributes and `repr`), or a raised exception (stringified). -/
inductive LegacyRes where
  | ldict : PMap → LegacyRes
  | lobj : Option PVal → Option PVal → String → LegacyRes
  | lraise : String → LegacyRes
deriving DecidableEq

/-- The environment `_execute_action` runs in: `v3` models
`self.composio_v3` (absent, raising, or returning a response);
`legacyPresent` models `self.composio is not None`; `legacyHasActions`
models `hasattr(self.composio, "actions")`; `actionImported` models
`Action is not None` (the legacy enum type imported successfully); `enumHas`
models `getattr(Action, action_slug, None) is not None`; `legacy` is the
legacy call outcome. -/
structure ExecEnv where
  v3 : Option (Except Unit V3Res)
  legacyPresent : Bool
  legacyHasActions : Bool
  actionImported : Bool
  enumHas : String → Bool
  legacy : LegacyRes

/-- Embedding of `_execute_action` (lines 442-499).  The argument mappings
passed to the underlying calls are factored into `mkV3Call`/`mkLegacyCall`;
this function gives the returned outcome.  Every path returns a dict. -/
def executeAction (env : ExecEnv) (slug : String) (_params : PMap) : PMap :=
  match env.v3 with
  | some (.ok r) => v3Payload r
  | _ =>
    if !env.legacyPresent || !env.legacyHasActions then
      [("error", .pstr "composio_client_unavailable")]
    else if !(env.actionImported && env.enumHas slug) then
      [("error", .pstr "legacy_action_not_found")]
    else
      match env.legacy with
      | .ldict m => m
      | .lobj st d raw =>
        [("status", st.getD .pnone), ("data", d.getD .pnone), ("raw", .pstr raw)]
      | .lraise msg => [("error", .pstr msg)]

/-! ## Claim C9 — closed error outcomes when all strategies fail or skip -/

/-- C9: with no versioned client, a present legacy client whose enum lacks a
member for the action identifier yields exactly
`{"error": "legacy_action_not_found"}`; with no usable client at all the
dispatcher yields exactly `{"error": "composio_client_unavailable"}`; the two
error strings are distinct, so the caller can distinguish the failure modes. -/
theorem c9_error_outcomes (slug : String) (params : PMap) (env : ExecEnv) :
    (env.v3 = none → env.legacyPresent = true → env.legacyHasActions = true →
      (env.actionImported && env.enumHas slug) = false →
      executeAction env slug params = [("error", .pstr "legacy_action_not_found")]) ∧
    (env.v3 = none → env.legacyPresent = false →
      executeAction env slug params = [("error", .pstr "composio_client_unavailable")]) ∧
    ("legacy_action_not_found" : String) ≠ "composio_client_unavailable" := by
  refine ⟨?_, ?_, by decide⟩
  · intro hv hp ha he
    simp [executeAction, hv, hp, ha, he]
  · intro hv hp
    simp [executeAction, hv, hp]

/-- C9 witness: the spec scenario `execute("UNKNOWN_ACTION", {})` with no
versioned client and no legacy enum match, and the same call with no legacy
client at all. -/
theorem c9_witness :
    executeAction
        { v3 := none, legacyPresent := true, legacyHasActions := true,
          actionImported := true, enumHas := fun _ => false, legacy := .lraise "x" }
        "UNKNOWN_ACTION" [] =
      [("error", .pstr "legacy_action_not_found")] ∧
    executeAction
        { v3 := none, legacyPresent := false, legacyHasActions := false,
          actionImported := true, enumHas := fun _ => false, legacy := .lraise "x" }
        "UNKNOWN_ACTION" [] =
      [("error", .pstr "composio_client_unavailable")] :=
  ⟨(c9_error_outcomes "UNKNOWN_ACTION" []
      { v3 := none, legacyPresent := true, legacyHasActions := true,
        actionImported := true, enumHas := fun _ => false, legacy := .lraise "x" }).1
      rfl rfl rfl rfl,
   (c9_error_outcomes "UNKNOWN_ACTION" []
      { v3 := none, legacyPresent := false, legacyHasActions := false,
        actionImported := true, enumHas := fun _ => false, legacy := .lraise "x" }).2.1
      rfl rfl⟩

end ToolRouter
